import Mathlib

/-!
Shallow embedding of the Bounded Windowed Iterator that the repository's
notebooks exercise: Boundary Set, Window Stepper, Padding Wrapper and
Orbit Segmenter.  The notebooks only invoke an external data-loading
library, so the operations themselves are modelled from the
specification.  Markers (timestamps or file identifiers) are modelled as
integers; one unit stands for one day or one second, the claims being
unit-independent.
-/

/-- A concrete (window_start, window_stop) range produced for one
iteration step of the Window Stepper. -/
structure Window where
  start : Int
  stop : Int
  deriving DecidableEq, Repr

/-- Modelled from the spec: the Window Stepper's iteration state (the
underlying library's iteration code is not in the repository).  `pairs`
holds the remaining (start_marker, stop_marker) pairs of the Boundary
Set, the current pair at the head; `cursor` is the current position. -/
structure StepperState where
  pairs : List (Int × Int)
  cursor : Int
  deriving DecidableEq, Repr

/-- Start marker of the head pair, or `d` when no pairs remain. -/
def headStart (pairs : List (Int × Int)) (d : Int) : Int :=
  match pairs with
  | [] => d
  | (a, _) :: _ => a

/-- Modelled from the spec: `next_window` of the Window Stepper (§4.1);
the library's iteration code is not in the repository.  While the cursor
is inside the current pair it yields the window
(cursor, min (cursor + width) stop_marker) and advances the cursor by
`step`; once the cursor reaches or passes the current pair's stop marker
it moves to the next pair, and when no pairs remain it returns `none`,
the normal end-of-sequence terminal state. -/
def next_window (step width : Int) : StepperState → Option (Window × StepperState)
  | ⟨[], _⟩ => none
  | ⟨(a, b) :: rest, c⟩ =>
    if c < b then
      some (⟨c, min (c + width) b⟩, ⟨(a, b) :: rest, c + step⟩)
    else
      next_window step width ⟨rest, headStart rest c⟩
termination_by s => s.pairs.length

/-- The error taxonomy of §7 for invalid iteration configurations. -/
inductive ConfigError where
  | invalidOrdering
  | nonPositiveWidth
  | backwardStep
  deriving DecidableEq, Repr

/-- A validated iteration configuration: Boundary Set pairs plus step and
width, as assigned through `inst.bounds`. -/
structure Bounds where
  pairs : List (Int × Int)
  step : Int
  width : Int
  deriving DecidableEq, Repr

/-- Modelled from the spec: assignment of the iteration bounds
(`inst.bounds = (start, stop, step, width)`); the library's validation
code is not in the repository.  Construction fails immediately with a
configuration error on invalid boundary ordering (start ≥ stop), a
non-positive width, or a backward step (§7); otherwise it returns the
validated `Bounds`. -/
def setBounds (pairs : List (Int × Int)) (st wd : Int) : Except ConfigError Bounds :=
  if pairs.any (fun p => decide (p.2 ≤ p.1)) then
    Except.error ConfigError.invalidOrdering
  else if wd ≤ 0 then
    Except.error ConfigError.nonPositiveWidth
  else if st < 0 then
    Except.error ConfigError.backwardStep
  else
    Except.ok ⟨pairs, st, wd⟩

/-- C1: for a valid configuration with the cursor inside the current
(start, stop) pair, `next_window` yields the Window
(cursor, min (cursor + width) stop_marker) and advances the cursor by
`step`; with no pairs remaining, or once the cursor has reached or
passed the last pair's stop marker, it returns `none` — a normal
end-of-sequence terminal state, not an error. -/
theorem next_window_yield_and_terminal
    (st wd a b c : Int) (rest : List (Int × Int)) (bd : Bounds)
    (hv : setBounds ((a, b) :: rest) st wd = Except.ok bd)
    (hlo : a ≤ c) (hhi : c < b) :
    next_window st wd ⟨(a, b) :: rest, c⟩ =
      some (⟨c, min (c + wd) b⟩, ⟨(a, b) :: rest, c + st⟩) ∧
    (∀ c', next_window st wd ⟨[], c'⟩ = none) ∧
    (∀ a' b' c', b' ≤ c' → next_window st wd ⟨[(a', b')], c'⟩ = none) := by
  refine ⟨by simp [next_window, hhi], fun c' => by simp [next_window],
    fun a' b' c' h => by simp [next_window, not_lt.mpr h, headStart]⟩

/-- Witness for C1 at the configuration pairs = [(0, 10)], step = 2,
width = 3, cursor = 4. -/
theorem next_window_yield_and_terminal_witness :
    next_window 2 3 ⟨[((0 : Int), 10)], 4⟩ =
      some (⟨4, min (4 + 3) 10⟩, ⟨[(0, 10)], 4 + 2⟩) :=
  (next_window_yield_and_terminal 2 3 0 10 4 [] ⟨[(0, 10)], 2, 3⟩
    rfl (by decide) (by decide)).1

/-- C2: with Boundary Set [(day1, day1 + 2d)], step = 1d and width = 1d,
iterating from the reset cursor day1 yields exactly the two Windows
(day1, day1 + 1d) and (day1 + 1d, day1 + 2d), in that order, and then
terminates. -/
theorem two_day_iteration_example (d : Int) :
    next_window 1 1 ⟨[(d, d + 2)], d⟩ =
      some (⟨d, d + 1⟩, ⟨[(d, d + 2)], d + 1⟩) ∧
    next_window 1 1 ⟨[(d, d + 2)], d + 1⟩ =
      some (⟨d + 1, d + 2⟩, ⟨[(d, d + 2)], d + 1 + 1⟩) ∧
    next_window 1 1 ⟨[(d, d + 2)], d + 2⟩ = none := by
  have h1 : d < d + 2 := by omega
  have h2 : d + 1 < d + 2 := by omega
  have h3 : ¬ d + 2 < d + 2 := by omega
  refine ⟨by simp [next_window, h1], ?_, by simp [next_window, h3, headStart]⟩
  have hm : min (d + 1 + 1) (d + 2) = d + 2 := by omega
  simp [next_window, h2, hm]

/-- A loaded chunk: the ordered list of sample timestamps returned by the
Load Collaborator (field values are irrelevant to the claims). -/
abbrev Chunk := List Int

/-- A Load Collaborator failure (§7: malformed source and the like). -/
inductive LoadError where
  | sourceMalformed
  deriving DecidableEq, Repr

/-- Lead/trail margin of a Padded Request (`pad`). -/
structure Margin where
  lead : Int
  trail : Int
  deriving DecidableEq, Repr

/-- Restrict a chunk to the half-open range [a, b). -/
def trim (chunk : Chunk) (a b : Int) : Chunk :=
  List.filter (fun t => decide (a ≤ t ∧ t < b)) chunk

/-- Padded request start: window start minus the lead margin, clamped at
the Boundary Set's global start marker `g1`. -/
def paddedStart (g1 lead ws : Int) : Int := max (ws - lead) g1

/-- Padded request stop: window stop plus the trail margin, clamped at
the Boundary Set's global stop marker `g2`. -/
def paddedStop (g2 trail we : Int) : Int := min (we + trail) g2

/-- Modelled from the spec: `load_padded` of the Padding Wrapper (§4.2,
`inst.load(pad=..., verifyPad=...)`); the library's padding code is not
in the repository.  It builds the clamped Padded Request, invokes the
Load Collaborator `f`, propagates a collaborator failure unchanged, and
otherwise trims the chunk to [window_start, window_stop) — unless the
caller requested the `verifyPad` debug mode, in which case the full
padded chunk is returned untrimmed. -/
def load_padded (f : Int → Int → Except LoadError Chunk) (g1 g2 : Int)
    (w : Window) (m : Margin) (verifyPad : Bool) : Except LoadError Chunk :=
  match f (paddedStart g1 m.lead w.start) (paddedStop g2 m.trail w.stop) with
  | Except.error e => Except.error e
  | Except.ok chunk =>
      Except.ok (if verifyPad then chunk else trim chunk w.start w.stop)

/-- A Load Collaborator that slices a global source of sample times by
half-open range — the interface contract of §6. -/
def sliceColl (src : List Int) (a b : Int) : Except LoadError Chunk :=
  Except.ok (List.filter (fun t => decide (a ≤ t ∧ t < b)) src)

/-- Trimming to [a, b) after filtering to a wider range [p, q) is the
same as trimming the original list to [a, b). -/
theorem trim_of_wider (src : List Int) (a b p q : Int) (hpa : p ≤ a) (hbq : b ≤ q) :
    List.filter (fun t => decide (a ≤ t ∧ t < b))
        (List.filter (fun t => decide (p ≤ t ∧ t < q)) src)
      = List.filter (fun t => decide (a ≤ t ∧ t < b)) src := by
  rw [List.filter_filter]
  apply List.filter_congr
  intro t _
  by_cases h : a ≤ t ∧ t < b
  · have hq : p ≤ t ∧ t < q := by omega
    simp [h, hq]
  · simp [h]

/-- C3: whenever the Load Collaborator answers the padded request with a
chunk, `load_padded` in normal mode returns that chunk trimmed to
exactly [window_start, window_stop), and only the explicit `verifyPad`
debug mode skips the trim and returns the full padded chunk. -/
theorem load_padded_trim_modes
    (f : Int → Int → Except LoadError Chunk) (g1 g2 : Int)
    (w : Window) (m : Margin) (chunk : Chunk)
    (h : f (paddedStart g1 m.lead w.start) (paddedStop g2 m.trail w.stop)
      = Except.ok chunk) :
    load_padded f g1 g2 w m false = Except.ok (trim chunk w.start w.stop) ∧
    load_padded f g1 g2 w m true = Except.ok chunk := by
  constructor <;> simp [load_padded, h]

/-- Witness for C3 on the source [0, 1, 2, 3, 4], window (2, 4),
margin (1, 1), global range (0, 5). -/
theorem load_padded_trim_modes_witness :
    load_padded (sliceColl [0, 1, 2, 3, 4]) 0 5 ⟨2, 4⟩ ⟨1, 1⟩ false =
      Except.ok (trim [1, 2, 3, 4] 2 4) ∧
    load_padded (sliceColl [0, 1, 2, 3, 4]) 0 5 ⟨2, 4⟩ ⟨1, 1⟩ true =
      Except.ok [1, 2, 3, 4] :=
  load_padded_trim_modes (sliceColl [0, 1, 2, 3, 4]) 0 5 ⟨2, 4⟩ ⟨1, 1⟩
    [1, 2, 3, 4] rfl

/-- C4: padding round-trip — when the padded request lies entirely
inside the Boundary Set's global range, trimming the result of
`load_padded` equals the plain (unpadded) load of the window. -/
theorem padding_round_trip (src : List Int) (g1 g2 lead trail : Int) (w : Window)
    (hl : 0 ≤ lead) (ht : 0 ≤ trail)
    (h1 : g1 ≤ w.start - lead) (h2 : w.stop + trail ≤ g2) :
    Except.map (fun c => trim c w.start w.stop)
        (load_padded (sliceColl src) g1 g2 w ⟨lead, trail⟩ false)
      = sliceColl src w.start w.stop := by
  have hps : paddedStart g1 lead w.start = w.start - lead := by
    simp [paddedStart]; omega
  have hpe : paddedStop g2 trail w.stop = w.stop + trail := by
    simp [paddedStop]; omega
  simp only [load_padded, sliceColl, hps, hpe, Except.map, trim,
    Bool.false_eq_true, if_false]
  rw [trim_of_wider src _ _ _ _ (by omega) (by omega),
    trim_of_wider src _ _ _ _ (by omega) (by omega)]

/-- Witness for C4: margin (1, 1) on window (2, 4) inside global
range (0, 6), over the source [0, 1, 2, 3, 4, 5]. -/
theorem padding_round_trip_witness :
    Except.map (fun c => trim c (2 : Int) 4)
        (load_padded (sliceColl [0, 1, 2, 3, 4, 5]) 0 6 ⟨2, 4⟩ ⟨1, 1⟩ false)
      = sliceColl [0, 1, 2, 3, 4, 5] 2 4 :=
  padding_round_trip [0, 1, 2, 3, 4, 5] 0 6 1 1 ⟨2, 4⟩
    (by decide) (by decide) (by decide) (by decide)

/-- Modelled from the spec: the Orbit Segmenter's segment windows (§4.3);
the library's orbit code is not in the repository.  Given the global
range (g1, g2) and the detected break times, the segments are the
windows between consecutive walls g1, b1, ..., bn, g2 — the first and
last segments are bounded by the Boundary Set's absolute limits. -/
def segmentsFromBreaks (g1 g2 : Int) : List Int → List Window
  | [] => [⟨g1, g2⟩]
  | b :: rest => ⟨g1, b⟩ :: segmentsFromBreaks b g2 rest

/-- Every segment's start is the left wall or a break, and its stop is
the right wall or a break. -/
theorem mem_segmentsFromBreaks (s : Window) (b : Int) :
    ∀ (a : Int) (l : List Int), s ∈ segmentsFromBreaks a b l →
      (s.start = a ∨ s.start ∈ l) ∧ (s.stop = b ∨ s.stop ∈ l) := by
  intro a l
  induction l generalizing a with
  | nil =>
    intro h
    simp [segmentsFromBreaks] at h
    simp [h]
  | cons x xs ih =>
    intro h
    simp only [segmentsFromBreaks, List.mem_cons] at h
    rcases h with h | h
    · simp [h]
    · have hm := ih x h
      constructor
      · rcases hm.1 with h1 | h1 <;> simp [h1]
      · rcases hm.2 with h1 | h1 <;> simp [h1]

/-- C5: clamp invariant — every padded request stays inside the Boundary
Set's global range [g1, g2]; a window starting at the global start gets
no lead padding and a window stopping at the global stop gets no trail
padding; and every orbit segment built from breaks inside the global
range stays inside the global range. -/
theorem boundary_clamp_invariant (g1 g2 lead trail : Int) (w : Window)
    (hl : 0 ≤ lead) (ht : 0 ≤ trail) (breaks : List Int)
    (hb : ∀ t ∈ breaks, g1 ≤ t ∧ t ≤ g2) :
    g1 ≤ paddedStart g1 lead w.start ∧
    paddedStop g2 trail w.stop ≤ g2 ∧
    (w.start = g1 → paddedStart g1 lead w.start = g1) ∧
    (w.stop = g2 → paddedStop g2 trail w.stop = g2) ∧
    (∀ s ∈ segmentsFromBreaks g1 g2 breaks, g1 ≤ s.start ∧ s.stop ≤ g2) := by
  refine ⟨le_max_right _ _, min_le_right _ _, ?_, ?_, ?_⟩
  · intro h
    simp [paddedStart, h]
    omega
  · intro h
    simp [paddedStop, h]
    omega
  · intro s hs
    have hm := mem_segmentsFromBreaks s g2 g1 breaks hs
    constructor
    · rcases hm.1 with h1 | h1
      · omega
      · exact (hb _ h1).1
    · rcases hm.2 with h1 | h1
      · omega
      · exact (hb _ h1).2

/-- Witness for C5: margin (2, 2) on window (0, 10) with global
range (0, 10) and breaks [3, 7]. -/
theorem boundary_clamp_invariant_witness :
    (0 : Int) ≤ paddedStart 0 2 (Window.mk 0 10).start ∧
    paddedStop 10 2 (Window.mk 0 10).stop ≤ 10 ∧
    ((Window.mk 0 10).start = 0 → paddedStart 0 2 (Window.mk 0 10).start = 0) ∧
    ((Window.mk 0 10).stop = 10 → paddedStop 10 2 (Window.mk 0 10).stop = 10) ∧
    (∀ s ∈ segmentsFromBreaks 0 10 [3, 7], (0 : Int) ≤ s.start ∧ s.stop ≤ 10) :=
  boundary_clamp_invariant 0 10 2 2 ⟨0, 10⟩ (by decide) (by decide) [3, 7]
    (by decide)

/-- The orbit segmentation kinds of the notebook's `orbit_info`
configuration: 'lt' (local time), 'longitude', 'polar', 'orbit'. -/
inductive OrbitKind where
  | localTime
  | longitude
  | polar
  | orbitNumber
  deriving DecidableEq, Repr

/-- A discontinuity in the underlying data's ordering between
consecutive samples (non-monotonic timestamps). -/
def discont (p q : Int × Int) : Bool := decide (q.1 ≤ p.1)

/-- Modelled from the spec: the break rule between two consecutive
(time, index) samples for each orbit kind (§4.3, and the notebook's
`orbit_info` comment): negative index gradient for local-time and
longitude kinds, zero-crossing of the index for the polar kind — each
also breaking at a data-ordering discontinuity — and any change of the
discretized index for the orbit-number kind. -/
def isBreak : OrbitKind → (Int × Int) → (Int × Int) → Bool
  | OrbitKind.localTime, p, q => decide (q.2 < p.2) || discont p q
  | OrbitKind.longitude, p, q => decide (q.2 < p.2) || discont p q
  | OrbitKind.polar, p, q =>
      (decide (p.2 < 0 ∧ 0 ≤ q.2) || decide (0 ≤ p.2 ∧ q.2 < 0)) || discont p q
  | OrbitKind.orbitNumber, p, q => decide (q.2 ≠ p.2)

/-- Times of the candidate segment breaks of an index series: the
timestamps of samples at which the kind's break rule fires against the
preceding sample. -/
def candidateBreaks (kind : OrbitKind) : List (Int × Int) → List Int
  | p :: q :: rest =>
      if isBreak kind p q then q.1 :: candidateBreaks kind (q :: rest)
      else candidateBreaks kind (q :: rest)
  | _ => []

/-- Drop every break closer than `per` to the previously kept break
(`prev` is the last kept break time). -/
def mergeClose (per : Int) : Int → List Int → List Int
  | _, [] => []
  | prev, t :: rest =>
      if t - prev < per then mergeClose per prev rest
      else t :: mergeClose per t rest

/-- Period-based break filtering: keep the first candidate break, then
suppress any candidate closer than `per` to the last kept one. -/
def filterBreaks (per : Int) : List Int → List Int
  | [] => []
  | t :: rest => t :: mergeClose per t rest

/-- Consecutive entries of the list are at least `per` apart. -/
def periodSeparated (per : Int) : List Int → Bool
  | x :: y :: rest => decide (per ≤ y - x) && periodSeparated per (y :: rest)
  | _ => true

/-- Modelled from the spec and the notebook's `orbit_info` comment
("'period' applys orbit breakdown filtering ... Currently only applies
to 'local time' orbits."): the library's orbit code is not in the
repository.  The segment break times of an index series; the optional
period filter is applied for the local-time kind only. -/
def segmentBreaks (kind : OrbitKind) (period : Option Int)
    (series : List (Int × Int)) : List Int :=
  match kind, period with
  | OrbitKind.localTime, some per =>
      filterBreaks per (candidateBreaks OrbitKind.localTime series)
  | k, _ => candidateBreaks k series

/-- After `mergeClose`, consecutive kept breaks (starting from the last
kept one) are at least `per` apart. -/
theorem mergeClose_sep (per : Int) (l : List Int) :
    ∀ prev : Int, periodSeparated per (prev :: mergeClose per prev l) = true := by
  induction l with
  | nil => intro prev; simp [mergeClose, periodSeparated]
  | cons t rest ih =>
    intro prev
    by_cases h : t - prev < per
    · rw [show mergeClose per prev (t :: rest) = mergeClose per prev rest from by
        simp [mergeClose, h]]
      exact ih prev
    · rw [show mergeClose per prev (t :: rest) = t :: mergeClose per t rest from by
        simp [mergeClose, h]]
      simp [periodSeparated, ih t]
      omega

/-- Counterexample to C6 as stated: for the orbit-number kind with
period 10 on the series [(0, 0), (1, 1), (2, 2)], the two candidate
breaks at times 1 and 2 are only 1 apart yet both are kept — the period
merge does not apply to every kind of segmentation. -/
theorem period_merge_not_all_kinds_cex :
    segmentBreaks OrbitKind.orbitNumber (some 10) [(0, 0), (1, 1), (2, 2)]
      = [1, 2] ∧
    periodSeparated 10
        (segmentBreaks OrbitKind.orbitNumber (some 10) [(0, 0), (1, 1), (2, 2)])
      = false := by
  constructor <;> rfl

/-- C6 (amended): only for local-time orbit segmentation does a supplied
period merge consecutive candidate breaks closer together than the
period (the kept breaks are at least the period apart); for the
longitude, polar and orbit-number kinds the period parameter has no
effect and the candidate breaks are returned unfiltered. -/
theorem segmentBreaks_period_localTime_only (per : Int) (series : List (Int × Int)) :
    periodSeparated per (segmentBreaks OrbitKind.localTime (some per) series) = true ∧
    segmentBreaks OrbitKind.longitude (some per) series
      = candidateBreaks OrbitKind.longitude series ∧
    segmentBreaks OrbitKind.polar (some per) series
      = candidateBreaks OrbitKind.polar series ∧
    segmentBreaks OrbitKind.orbitNumber (some per) series
      = candidateBreaks OrbitKind.orbitNumber series := by
  refine ⟨?_, rfl, rfl, rfl⟩
  show periodSeparated per
    (filterBreaks per (candidateBreaks OrbitKind.localTime series)) = true
  cases h : candidateBreaks OrbitKind.localTime series with
  | nil => rfl
  | cons t rest =>
    simp only [filterBreaks]
    exact mergeClose_sep per rest t

/-- C7: assignment of the iteration bounds succeeds exactly when every
pair is ordered (start < stop), the width is positive, and the step does
not move the cursor backward; any invalid configuration yields a
configuration error at construction, before any iteration or load. -/
theorem setBounds_ok_iff_valid (pairs : List (Int × Int)) (st wd : Int) :
    (∃ b, setBounds pairs st wd = Except.ok b) ↔
      (∀ p ∈ pairs, p.1 < p.2) ∧ 0 < wd ∧ 0 ≤ st := by
  simp only [setBounds]
  split_ifs with h1 h2 h3
  · simp only [List.any_eq_true, decide_eq_true_eq] at h1
    obtain ⟨p, hp, hple⟩ := h1
    constructor
    · rintro ⟨b, hb⟩
      exact hb.elim
    · rintro ⟨hord, -⟩
      exact absurd (hord p hp) (by omega)
  · constructor
    · rintro ⟨b, hb⟩
      exact hb.elim
    · rintro ⟨-, hw, -⟩
      omega
  · constructor
    · rintro ⟨b, hb⟩
      exact hb.elim
    · rintro ⟨-, -, hs⟩
      omega
  · constructor
    · intro _
      simp only [List.any_eq_true, decide_eq_true_eq, not_exists] at h1
      push_neg at h1
      refine ⟨fun p hp => ?_, by omega, by omega⟩
      have := h1 p hp
      omega
    · intro _
      exact ⟨_, rfl⟩

/-- C8: a Load Collaborator answering "no data" makes `load_padded`
return the explicit empty chunk rather than raise, a Load Collaborator
failure is propagated unchanged, and the two outcomes are
distinguishable values. -/
theorem empty_vs_failure_distinguishable
    (f1 f2 : Int → Int → Except LoadError Chunk) (g1 g2 : Int)
    (w : Window) (m : Margin) (vp : Bool) (e : LoadError)
    (hempty : f1 (paddedStart g1 m.lead w.start) (paddedStop g2 m.trail w.stop)
      = Except.ok [])
    (hfail : f2 (paddedStart g1 m.lead w.start) (paddedStop g2 m.trail w.stop)
      = Except.error e) :
    load_padded f1 g1 g2 w m vp = Except.ok [] ∧
    load_padded f2 g1 g2 w m vp = Except.error e ∧
    (Except.ok ([] : Chunk) : Except LoadError Chunk) ≠ Except.error e := by
  refine ⟨?_, ?_, by simp⟩
  · cases vp <;> simp [load_padded, hempty, trim]
  · simp [load_padded, hfail]

/-- Witness for C8 with the constant collaborators that report no data
and that fail, on window (1, 3), margin (1, 1), global range (0, 5). -/
theorem empty_vs_failure_distinguishable_witness :
    load_padded (fun _ _ => Except.ok []) 0 5 ⟨1, 3⟩ ⟨1, 1⟩ false
      = Except.ok [] ∧
    load_padded (fun _ _ => Except.error LoadError.sourceMalformed) 0 5
      ⟨1, 3⟩ ⟨1, 1⟩ false = Except.error LoadError.sourceMalformed ∧
    (Except.ok ([] : Chunk) : Except LoadError Chunk)
      ≠ Except.error LoadError.sourceMalformed :=
  empty_vs_failure_distinguishable (fun _ _ => Except.ok [])
    (fun _ _ => Except.error LoadError.sourceMalformed) 0 5 ⟨1, 3⟩ ⟨1, 1⟩
    false LoadError.sourceMalformed rfl rfl

/-- Look a keyword up in an association list of keyword values. -/
def lookupKw : List (String × Int) → String → Option Int
  | [], _ => none
  | (k, v) :: rest, q => if k = q then some v else lookupKw rest q

/-- Modelled from the spec (§9 design note): the persistent base
configuration fixed at instantiation, e.g.
`pysat.Instrument(..., num_samples=10)`; the library's keyword handling
is not in the repository. -/
structure Instrument where
  base : List (String × Int)
  deriving DecidableEq, Repr

/-- The effective value of a keyword for one call: the per-call override
map wins, otherwise the persistent base configuration applies. -/
def mergedValue (inst : Instrument) (overrides : List (String × Int))
    (q : String) : Option Int :=
  match lookupKw overrides q with
  | some v => some v
  | none => lookupKw inst.base q

/-- Modelled from the spec (§9 design note): one `load` call with a
per-call override map, merged immutably with the base configuration; it
returns the effective value of the queried keyword together with the
instrument as it stands after the call. -/
def instLoad (inst : Instrument) (overrides : List (String × Int))
    (q : String) : Option Int × Instrument :=
  (mergedValue inst overrides q, inst)

/-- C9: a keyword supplied to a single load call overrides the base
configuration for that call only; the base configuration is never
mutated, and a subsequent call without the keyword uses the value fixed
at instantiation. -/
theorem config_scope_frame (b ov : List (String × Int)) (q : String) (v : Int)
    (hov : lookupKw ov q = some v) :
    (instLoad ⟨b⟩ ov q).1 = some v ∧
    (instLoad ⟨b⟩ ov q).2 = ⟨b⟩ ∧
    (instLoad (instLoad ⟨b⟩ ov q).2 [] q).1 = lookupKw b q := by
  refine ⟨by simp [instLoad, mergedValue, hov], rfl, ?_⟩
  simp [instLoad, mergedValue, lookupKw]

/-- Witness for C9: `num_samples` is 10 at instantiation, 3 for the one
overridden call, and 10 again on the next call. -/
theorem config_scope_frame_witness :
    (instLoad ⟨[("num_samples", 10)]⟩ [("num_samples", 3)] "num_samples").1
      = some 3 ∧
    (instLoad ⟨[("num_samples", 10)]⟩ [("num_samples", 3)] "num_samples").2
      = ⟨[("num_samples", 10)]⟩ ∧
    (instLoad (instLoad ⟨[("num_samples", 10)]⟩ [("num_samples", 3)]
        "num_samples").2 [] "num_samples").1
      = lookupKw [("num_samples", 10)] "num_samples" :=
  config_scope_frame [("num_samples", 10)] [("num_samples", 3)]
    "num_samples" 3 (by decide)

/-- Modelled from the spec and the notebook comments ("Inclusive first
input, exclusive second. Keywords starting with `end_` are" exclusive):
a date-marker range load returns the days in the half-open range
[a, b); the library's load code is not in the repository. -/
def loadDateRange (days : List Int) (a b : Int) : List Int :=
  List.filter (fun d => decide (a ≤ d ∧ d < b)) days

/-- Modelled from the spec and the notebook comments ("Filename bounds
are inclusive for both ends"): a filename-marker range load returns the
files in the closed range [a, b]; the library's load code is not in the
repository. -/
def loadFnameRange (files : List Int) (a b : Int) : List Int :=
  List.filter (fun f => decide (a ≤ f ∧ f ≤ b)) files

/-- C10: a date-marker range load is inclusive of the first marker and
exclusive of the second, while a filename-marker range load is
inclusive at both ends — in particular the second marker itself is
never in a date-range load but is in a filename-range load whenever it
is an existing file at or after the first marker. -/
theorem marker_kind_asymmetry (days files : List Int) (a b x : Int) :
    (x ∈ loadDateRange days a b ↔ x ∈ days ∧ a ≤ x ∧ x < b) ∧
    (x ∈ loadFnameRange files a b ↔ x ∈ files ∧ a ≤ x ∧ x ≤ b) ∧
    (b ∈ loadDateRange days a b ↔ False) ∧
    (b ∈ loadFnameRange files a b ↔ b ∈ files ∧ a ≤ b) := by
  refine ⟨?_, ?_, ?_, ?_⟩ <;>
    simp [loadDateRange, loadFnameRange, List.mem_filter]
